import Mathlib

/-!
# eep: named keys over a byte-addressable EEPROM

A shallow embedding of `eep.go` (package `eep`): the entry registry
(`findEntry`) and the four accessors `Read`, `Write`, `Length`, `Is`,
layered on the external `at24cx` device driver.

Conventions of the embedding

* `uint16` offsets and lengths are natural numbers; the source performs no
  arithmetic on them, and the conversions `int64(ee.Offset)`, `int(ee.Length)`
  preserve the value.  `EEPROMEntry.WellFormed` states the 16-bit range.
* a `byte` is a `Fin 256`.
* a Go `error` is `Option GoError`, `none` being `nil`.
* a method on `*eeper` returns its Go results together with the accessor
  after the call, whose device carries the memory and the log of the
  primitive calls issued so far.
-/

namespace eep

/-! ## Data model -/

/-- A `byte`. -/
abbrev Byte := Fin 256

/-- A Go `error` value that is not `nil`.  An error built by `errors.New`
inside package `eep` carries its message.  An I/O error handed back by the
device driver is a value created outside the package: it is never identical
to an error created by one of the accessors, so it is a constructor of its
own, with a code that tells the driver's errors apart. -/
inductive GoError where
  | New (msg : String)
  | device (code : Nat)
  deriving DecidableEq, Repr

/-- The `errors.New` of the Go standard library. -/
def errors.New (msg : String) : GoError := GoError.New msg

def ERR_KEY_NOT_FOUND : String := "key not found in list of eeprom entries"
def ERR_VALUE_TOO_LONG : String := "could not write value to eeprom; max length for key exceeded"
def ERR_NOT_BOOL_KEY : String := "key is not a boolean style entry"

/-- The `EEPROMEntry` struct: `Key string; Offset uint16; Length uint16`. -/
structure EEPROMEntry where
  Key : String
  Offset : Nat
  Length : Nat
  deriving DecidableEq, Repr

/-- The range of the two `uint16` fields. -/
def EEPROMEntry.WellFormed (x : EEPROMEntry) : Prop :=
  x.Offset < 65536 ∧ x.Length < 65536

instance (x : EEPROMEntry) : Decidable x.WellFormed := by
  unfold EEPROMEntry.WellFormed; infer_instance

/-- The zero value `EEPROMEntry{}`. -/
def EEPROMEntry.zero : EEPROMEntry := { Key := "", Offset := 0, Length := 0 }

/-- A Go `[]byte` as seen by its holder: the backing array from the slice's
first element on (`cap` bytes) and the length `len ≤ cap`.  The elements of
the slice are the first `len` bytes of the backing array. -/
structure ByteSlice where
  backing : List Byte
  len : Nat
  deriving DecidableEq, Repr

/-- The capacity `cap(b)`. -/
def ByteSlice.cap (b : ByteSlice) : Nat := b.backing.length

/-- The elements `b[0], ..., b[len(b)-1]`, what `string(b)` or a `range` sees. -/
def ByteSlice.toList (b : ByteSlice) : List Byte := b.backing.take b.len

/-- The builtin `make([]byte, len, cap)`: a zeroed backing array. -/
def make (len cap : Nat) : ByteSlice := { backing := List.replicate cap 0, len := len }

/-! ## The device collaborator -/

/-- A primitive call issued to the device. -/
inductive DevCall where
  | readAt (len : Nat) (offset : Nat)
  | writeAt (data : List Byte) (offset : Nat)
  | readByte (offset : Nat)
  deriving DecidableEq, Repr

/-- Modelled from the spec: the `at24cx.Device` of the external driver
`tinygo.org/x/drivers/at24cx`, which the repository imports and does not
contain.  The spec treats it as a black box with `readRange`, `writeRange`
and `readSingleByte`, each of which returns its result or an I/O error.
The model is a byte memory indexed by address, the outcome the bus gives to
each kind of primitive (`none`: the primitive succeeds, `some`: it fails with
the I/O error of that code), and the log of the primitive calls issued.  A
failing range write may have stored a prefix of its data (`writeAtFault`
gives the number of bytes stored), and a failing single-byte read hands back
the byte given in `readByteFault`. -/
structure Device where
  mem : Nat → Byte
  readAtFault : Option Nat
  writeAtFault : Option (Nat × Nat)
  readByteFault : Option (Byte × Nat)
  calls : List DevCall

/-- The memory after storing `data` at `offset`, `offset + 1`, ... -/
def storeAt (mem : Nat → Byte) (data : List Byte) (offset : Nat) : Nat → Byte :=
  fun a => if h : offset ≤ a ∧ a - offset < data.length then data.get ⟨a - offset, h.2⟩ else mem a

/-- The bytes of the memory at `offset, ..., offset + n - 1`. -/
def fetch (mem : Nat → Byte) (offset n : Nat) : List Byte :=
  (List.range n).map (fun i => mem (offset + i))

/-- Modelled from the spec: `ReadAt(data []byte, offset int64) (n int, err error)`
of the driver, the `readRange` of the spec, with the contract of `io.ReaderAt`:
it fills the `len(data)` elements of `data` from the memory at `offset` on.
The callee receives a copy of the slice header, so the caller's `len` is out
of its reach; the result is the backing array after the call, `n` and `err`. -/
def Device.ReadAt (d : Device) (data : ByteSlice) (offset : Nat) :
    (List Byte × Nat × Option GoError) × Device :=
  let d' := { d with calls := d.calls ++ [DevCall.readAt data.len offset] }
  match d.readAtFault with
  | some code => ((data.backing, 0, some (GoError.device code)), d')
  | none => ((fetch d.mem offset data.len ++ data.backing.drop data.len, data.len, none), d')

/-- Modelled from the spec: `WriteAt(data []byte, offset int64) (n int, err error)`
of the driver, the `writeRange` of the spec: it stores `data` at `offset` on. -/
def Device.WriteAt (d : Device) (data : List Byte) (offset : Nat) :
    (Nat × Option GoError) × Device :=
  let calls := d.calls ++ [DevCall.writeAt data offset]
  match d.writeAtFault with
  | some (n, code) =>
    ((min n data.length, some (GoError.device code)),
      { d with mem := storeAt d.mem (data.take n) offset, calls := calls })
  | none => ((data.length, none), { d with mem := storeAt d.mem data offset, calls := calls })

/-- Modelled from the spec: `ReadByte(eepromAddress uint16) (uint8, error)` of the
driver, the `readSingleByte` of the spec. -/
def Device.ReadByte (d : Device) (offset : Nat) : (Byte × Option GoError) × Device :=
  let d' := { d with calls := d.calls ++ [DevCall.readByte offset] }
  match d.readByteFault with
  | some (b, code) => ((b, some (GoError.device code)), d')
  | none => ((d.mem offset, none), d')

/-- A device all of whose primitives succeed. -/
def Device.Healthy (d : Device) : Prop :=
  d.readAtFault = none ∧ d.writeAtFault = none ∧ d.readByteFault = none

/-! ## The accessor -/

/-- The `eeper` struct: the entry list and the device. -/
structure eeper where
  entries : List EEPROMEntry
  device : Device

/-- The constructor `New`; the device stands for `at24cx.New(bus)`. -/
def New (device : Device) (vals : List EEPROMEntry) : eeper :=
  { entries := vals, device := device }

/-- The loop of `findEntry` over the entries that remain. -/
def findEntryLoop (k : String) : List EEPROMEntry → EEPROMEntry × Option GoError
  | [] => (EEPROMEntry.zero, some (errors.New ("(" ++ k ++ ") " ++ ERR_KEY_NOT_FOUND)))
  | entry :: rest => if entry.Key = k then (entry, none) else findEntryLoop k rest

/-- The method `findEntry`: the entry with Key `k`, or an error. -/
def eeper.findEntry (e : eeper) (k : String) : EEPROMEntry × Option GoError :=
  findEntryLoop k e.entries

/-- The method `Read`. -/
def eeper.Read (e : eeper) (key : String) : (Option ByteSlice × Option GoError) × eeper :=
  match e.findEntry key with
  | (_, some _) => ((none, some (errors.New ERR_KEY_NOT_FOUND)), e)
  | (ee, none) =>
    let b := make 0 ee.Length
    match e.device.ReadAt b ee.Offset with
    | ((backing, _, err), d) => ((some { b with backing := backing }, err), { e with device := d })

/-- The method `Write`. -/
def eeper.Write (e : eeper) (key : String) (value : List Byte) : Option GoError × eeper :=
  match e.findEntry key with
  | (_, some _) => (some (errors.New ERR_KEY_NOT_FOUND), e)
  | (ee, none) =>
    if value.length > ee.Length then (some (errors.New ERR_VALUE_TOO_LONG), e)
    else
      match e.device.WriteAt value ee.Offset with
      | ((_, err), d) => (err, { e with device := d })

/-- The method `Length`. -/
def eeper.Length (e : eeper) (key : String) : (Nat × Option GoError) × eeper :=
  match e.findEntry key with
  | (_, some err) => ((0, some err), e)
  | (ee, none) => ((ee.Length, none), e)

/-- The function `strconv.FormatUint(n, 10)`. -/
def strconv.FormatUint (n : Nat) : String := Nat.repr n

/-- The method `Is`; the `*bool` is `none` for `nil`. -/
def eeper.Is (e : eeper) (key : String) : (Option Bool × Option GoError) × eeper :=
  match e.findEntry key with
  | (_, some err) => ((none, some err), e)
  | (ee, none) =>
    if ee.Length > 1 then ((none, some (errors.New ("(" ++ key ++ ") " ++ ERR_NOT_BOOL_KEY))), e)
    else
      match e.device.ReadByte ee.Offset with
      | ((b, _), d) =>
        let e' := { e with device := d }
        if b = 1 then ((some true, none), e')
        else if b = 0 then ((some false, none), e')
        else ((none, some (errors.New (strconv.FormatUint b.val))), e')

/-- The key `k` is registered: some entry of the list has it as Key. -/
def Registered (entries : List EEPROMEntry) (k : String) : Prop :=
  ∃ x ∈ entries, x.Key = k

instance (entries : List EEPROMEntry) (k : String) : Decidable (Registered entries k) := by
  unfold Registered; infer_instance

/-- The entries of the example program. -/
def exampleEntries : List EEPROMEntry :=
  [ { Key := "DEVICE_NICKNAME", Offset := 0, Length := 32 },
    { Key := "TINYGO_COOL", Offset := 32, Length := 1 },
    { Key := "BYTE", Offset := 33, Length := 1 } ]

/-- A blank healthy device: every byte is `0xFF`, no call issued yet. -/
def blankDevice : Device :=
  { mem := fun _ => 255, readAtFault := none, writeAtFault := none, readByteFault := none,
    calls := [] }

/-- The registry of the example scenario of the specification. -/
def specEntries : List EEPROMEntry :=
  [ { Key := "NAME", Offset := 0, Length := 32 }, { Key := "FLAG", Offset := 32, Length := 1 } ]

/-- The bytes of the text "eep". -/
def eepBytes : List Byte := [101, 101, 112]

/-- A healthy device that holds `0x00` at every address, no call issued yet. -/
def zeroDevice : Device :=
  { mem := fun _ => 0, readAtFault := none, writeAtFault := none, readByteFault := none,
    calls := [] }

/-- A blank device whose single-byte read fails with the I/O error of code 5
and hands back the byte 0 together with the error. -/
def readByteFailDevice : Device :=
  { mem := fun _ => 255, readAtFault := none, writeAtFault := none,
    readByteFault := some (0, 5), calls := [] }

/-- A blank device whose range read fails with the I/O error of code 3 and whose
range write fails with the I/O error of code 4 before storing a byte. -/
def ioFailDevice : Device :=
  { mem := fun _ => 255, readAtFault := some 3, writeAtFault := some (0, 4),
    readByteFault := none, calls := [] }

/-- A registry with an entry of length 0 at the offset of another entry. -/
def zeroLengthEntries : List EEPROMEntry :=
  [ { Key := "A", Offset := 0, Length := 4 }, { Key := "B", Offset := 0, Length := 0 } ]

/-- A registry in which the key `A` occurs twice. -/
def duplicateKeyEntries : List EEPROMEntry :=
  [ { Key := "A", Offset := 0, Length := 4 }, { Key := "A", Offset := 8, Length := 4 },
    { Key := "B", Offset := 0, Length := 4 } ]

/-! ## The registry -/

/-- The message of the error of `findEntry` for the key `k`. -/
def keyNotFoundMsg (k : String) : String := "(" ++ k ++ ") " ++ ERR_KEY_NOT_FOUND

theorem keyNotFoundMsg_injective (k k' : String) (h : keyNotFoundMsg k = keyNotFoundMsg k') :
    k = k' := by
  unfold keyNotFoundMsg at h
  have h2 := congrArg String.data h
  simp only [String.data_append, List.append_assoc] at h2
  have h3 := List.append_cancel_left h2
  have h4 := List.append_cancel_right h3
  exact String.ext h4

theorem findEntryLoop_not_mem (k : String) (l : List EEPROMEntry) (h : ∀ y ∈ l, y.Key ≠ k) :
    findEntryLoop k l = (EEPROMEntry.zero, some (errors.New (keyNotFoundMsg k))) := by
  induction l with
  | nil => rfl
  | cons x rest ih =>
    have hx : x.Key ≠ k := h x (List.mem_cons_self x rest)
    simp only [findEntryLoop, hx, if_false]
    exact ih (fun y hy => h y (List.mem_cons_of_mem x hy))

theorem findEntryLoop_first (k : String) (pre post : List EEPROMEntry) (x : EEPROMEntry)
    (hpre : ∀ y ∈ pre, y.Key ≠ k) (hx : x.Key = k) :
    findEntryLoop k (pre ++ x :: post) = (x, none) := by
  induction pre with
  | nil => simp [findEntryLoop, hx]
  | cons y rest ih =>
    have hy : y.Key ≠ k := hpre y (List.mem_cons_self y rest)
    simp only [List.cons_append, findEntryLoop, hy, if_false]
    exact ih (fun z hz => hpre z (List.mem_cons_of_mem y hz))

theorem registered_split (l : List EEPROMEntry) (k : String) (h : Registered l k) :
    ∃ pre x post, l = pre ++ x :: post ∧ (∀ y ∈ pre, y.Key ≠ k) ∧ x.Key = k := by
  induction l with
  | nil => obtain ⟨x, hx, _⟩ := h; cases hx
  | cons a rest ih =>
    by_cases ha : a.Key = k
    · exact ⟨[], a, rest, rfl, by simp, ha⟩
    · obtain ⟨x, hx, hk⟩ := h
      have hx2 : x ∈ rest := by
        rcases List.mem_cons.mp hx with rfl | h2
        · exact absurd hk ha
        · exact h2
      obtain ⟨pre, y, post, hl, hpre, hy⟩ := ih ⟨x, hx2, hk⟩
      refine ⟨a :: pre, y, post, by simp [hl], ?_, hy⟩
      intro z hz
      rcases List.mem_cons.mp hz with rfl | h2
      · exact ha
      · exact hpre z h2

theorem not_registered_iff (l : List EEPROMEntry) (k : String) :
    ¬ Registered l k ↔ ∀ y ∈ l, y.Key ≠ k := by
  unfold Registered
  constructor
  · intro h y hy hk
    exact h ⟨y, hy, hk⟩
  · rintro h ⟨y, hy, hk⟩
    exact h y hy hk

/-- C1: for every entry list and every key `k` that is the Key of at least one
entry, `findEntry(k)` succeeds (nil error) and returns the first entry in list
order whose Key equals `k`: the list splits as `pre ++ x :: post` where no entry
of `pre` has Key `k`, `x.Key = k`, and `x` is the entry returned. -/
theorem findEntry_registered_first (e : eeper) (k : String) (h : Registered e.entries k) :
    ∃ pre x post, e.entries = pre ++ x :: post ∧ (∀ y ∈ pre, y.Key ≠ k) ∧ x.Key = k ∧
      e.findEntry k = (x, none) := by
  obtain ⟨pre, x, post, hl, hpre, hx⟩ := registered_split e.entries k h
  refine ⟨pre, x, post, hl, hpre, hx, ?_⟩
  unfold eeper.findEntry
  rw [hl]
  exact findEntryLoop_first k pre post x hpre hx

/-- Witness of C1 on a list with a duplicated key: the earliest entry wins. -/
theorem findEntry_registered_first_witness :
    ∃ pre x post,
      (New blankDevice [⟨"A", 0, 4⟩, ⟨"B", 4, 1⟩, ⟨"B", 9, 2⟩]).entries = pre ++ x :: post ∧
      (∀ y ∈ pre, y.Key ≠ "B") ∧ x.Key = "B" ∧
      (New blankDevice [⟨"A", 0, 4⟩, ⟨"B", 4, 1⟩, ⟨"B", 9, 2⟩]).findEntry "B" = (x, none) :=
  findEntry_registered_first (New blankDevice [⟨"A", 0, 4⟩, ⟨"B", 4, 1⟩, ⟨"B", 9, 2⟩]) "B"
    ⟨⟨"B", 4, 1⟩, by simp [New], rfl⟩

/-- C2: for every entry list and every key `k`, `findEntry(k)` fails (non-nil
error) if and only if no entry has Key `k`; and whenever it does not succeed the
result is the zero entry with the error `errors.New("(" + k + ") " +
ERR_KEY_NOT_FOUND)`, a message from which the queried key is recovered. -/
theorem findEntry_fails_iff (e : eeper) (k : String) :
    ((e.findEntry k).2 ≠ none ↔ ¬ Registered e.entries k) ∧
    ((e.findEntry k).2 = none ∨
      e.findEntry k =
        (EEPROMEntry.zero, some (errors.New ("(" ++ k ++ ") " ++ ERR_KEY_NOT_FOUND)))) ∧
    (∀ k' : String, "(" ++ k ++ ") " ++ ERR_KEY_NOT_FOUND = "(" ++ k' ++ ") " ++ ERR_KEY_NOT_FOUND ↔
      k = k') := by
  refine ⟨?_, ?_, ?_⟩
  · by_cases h : Registered e.entries k
    · obtain ⟨_, x, _, _, _, _, hf⟩ := findEntry_registered_first e k h
      simp [hf, h]
    · have hf := findEntryLoop_not_mem k e.entries ((not_registered_iff _ _).mp h)
      simp [eeper.findEntry, hf, h]
  · by_cases h : Registered e.entries k
    · obtain ⟨_, x, _, _, _, _, hf⟩ := findEntry_registered_first e k h
      left; simp [hf]
    · right
      exact findEntryLoop_not_mem k e.entries ((not_registered_iff _ _).mp h)
  · intro k'
    constructor
    · exact keyNotFoundMsg_injective k k'
    · rintro rfl; rfl

/-! ## Unregistered keys -/

theorem findEntry_unregistered (e : eeper) (k : String) (h : ¬ Registered e.entries k) :
    e.findEntry k = (EEPROMEntry.zero, some (errors.New (keyNotFoundMsg k))) :=
  findEntryLoop_not_mem k e.entries ((not_registered_iff _ _).mp h)

/-- C3: for every key `k` that is the Key of no entry, `Read(k)` and `Write(k, v)`
(for every `v`, of any length) fail with `errors.New(ERR_KEY_NOT_FOUND)`,
`Length(k)` and `Is(k)` fail with the key-not-found error of `findEntry`, and
the accessor after each call is the accessor before it: same device memory,
same log of device calls, so no device read or write was issued. -/
theorem unregistered_key_fails (e : eeper) (k : String) (h : ¬ Registered e.entries k) :
    e.Read k = ((none, some (errors.New ERR_KEY_NOT_FOUND)), e) ∧
    (∀ v : List Byte, e.Write k v = (some (errors.New ERR_KEY_NOT_FOUND), e)) ∧
    e.Length k = ((0, some (errors.New ("(" ++ k ++ ") " ++ ERR_KEY_NOT_FOUND))), e) ∧
    e.Is k = ((none, some (errors.New ("(" ++ k ++ ") " ++ ERR_KEY_NOT_FOUND))), e) := by
  have hf := findEntry_unregistered e k h
  refine ⟨?_, ?_, ?_, ?_⟩
  · simp only [eeper.Read, hf]
  · intro v
    simp only [eeper.Write, hf]
  · simp only [eeper.Length, hf, keyNotFoundMsg]
  · simp only [eeper.Is, hf, keyNotFoundMsg]

/-- Witness of C3: the write of the example program to the key `TINYGO_IS_COOL`,
which the example's entry list does not hold. -/
theorem unregistered_key_fails_witness :
    (New blankDevice exampleEntries).Read "TINYGO_IS_COOL" =
        ((none, some (errors.New ERR_KEY_NOT_FOUND)), New blankDevice exampleEntries) ∧
    (∀ v : List Byte, (New blankDevice exampleEntries).Write "TINYGO_IS_COOL" v =
        (some (errors.New ERR_KEY_NOT_FOUND), New blankDevice exampleEntries)) ∧
    (New blankDevice exampleEntries).Length "TINYGO_IS_COOL" =
        ((0, some (errors.New ("(" ++ "TINYGO_IS_COOL" ++ ") " ++ ERR_KEY_NOT_FOUND))),
          New blankDevice exampleEntries) ∧
    (New blankDevice exampleEntries).Is "TINYGO_IS_COOL" =
        ((none, some (errors.New ("(" ++ "TINYGO_IS_COOL" ++ ") " ++ ERR_KEY_NOT_FOUND))),
          New blankDevice exampleEntries) :=
  unregistered_key_fails (New blankDevice exampleEntries) "TINYGO_IS_COOL" (by decide)

/-- C4, as stated, fails: on the registry of the specification's example,
`Read("MISSING")` does not return the error that carries the key, and it
returns the very error that `Read("NONEXISTENT")` returns, so the queried key
is not recoverable from it. -/
theorem Read_unregistered_drops_key :
    ((New blankDevice specEntries).Read "MISSING").1.2 ≠
        some (errors.New ("(" ++ "MISSING" ++ ") " ++ ERR_KEY_NOT_FOUND)) ∧
    ((New blankDevice specEntries).Read "MISSING").1.2 =
        ((New blankDevice specEntries).Read "NONEXISTENT").1.2 := by
  constructor
  · decide
  · rfl

/-- C4, amended: for all keys `k` and `k'` that are not registered, `Read(k)`
fails with `errors.New(ERR_KEY_NOT_FOUND)`, the fixed message without the key,
and `Read(k')` fails with the same error; the error of `findEntry`, which
carries the key, is replaced and not passed through. -/
theorem Read_unregistered_canonical (e : eeper) (k k' : String)
    (h : ¬ Registered e.entries k) (h' : ¬ Registered e.entries k') :
    (e.Read k).1.2 = some (errors.New ERR_KEY_NOT_FOUND) ∧
    (e.Read k).1.2 = (e.Read k').1.2 ∧
    (e.Read k).1.2 ≠ (e.findEntry k).2 := by
  have hf := findEntry_unregistered e k h
  have hf' := findEntry_unregistered e k' h'
  refine ⟨?_, ?_, ?_⟩
  · simp only [eeper.Read, hf]
  · simp only [eeper.Read, hf, hf']
  · simp only [eeper.Read, hf, errors.New, ne_eq, Option.some.injEq, GoError.New.injEq]
    intro hc
    have hlen := congrArg String.length hc
    simp only [keyNotFoundMsg, String.length_append] at hlen
    have h1 : "(".length = 1 := by decide
    omega

/-- Witness of C4 amended, on the registry of the specification's example. -/
theorem Read_unregistered_canonical_witness :
    ((New blankDevice specEntries).Read "MISSING").1.2 = some (errors.New ERR_KEY_NOT_FOUND) ∧
    ((New blankDevice specEntries).Read "MISSING").1.2 =
        ((New blankDevice specEntries).Read "NONEXISTENT").1.2 ∧
    ((New blankDevice specEntries).Read "MISSING").1.2 ≠
        ((New blankDevice specEntries).findEntry "MISSING").2 :=
  Read_unregistered_canonical (New blankDevice specEntries) "MISSING" "NONEXISTENT"
    (by decide) (by decide)

/-! ## Read -/

theorem Read_slice_is_empty (e : eeper) (k : String) :
    (e.Read k).1.1.map ByteSlice.toList = none ∨ (e.Read k).1.1.map ByteSlice.toList = some [] := by
  unfold eeper.Read
  rcases hf : e.findEntry k with ⟨ee, _ | err⟩
  · right
    simp [make, ByteSlice.toList]
  · left
    simp

/-- C5, evaluated at a failing input: on the registry of the specification's
example and a blank device whose reads succeed, `Read("NAME")` returns a nil
error and a slice of length 0 (no elements, capacity 32), whereas the device
holds 32 bytes at addresses 0 .. 31; the single device call issued is a range
read of 0 bytes at offset 0. -/
theorem Read_NAME_returns_no_bytes :
    ((New blankDevice specEntries).findEntry "NAME").1.Length = 32 ∧
    ((New blankDevice specEntries).Read "NAME").1.2 = none ∧
    ((New blankDevice specEntries).Read "NAME").1.1.map ByteSlice.toList = some [] ∧
    ((New blankDevice specEntries).Read "NAME").1.1.map ByteSlice.cap = some 32 ∧
    fetch blankDevice.mem 0 32 = List.replicate 32 255 ∧
    ((New blankDevice specEntries).Read "NAME").2.device.calls = [DevCall.readAt 0 0] := by
  refine ⟨by decide, by decide, by decide, by decide, by decide, by decide⟩

/-- C6, evaluated at a failing input: on the registry of the specification's
example and a blank device whose operations succeed, `Write("NAME", "eep")`
succeeds and stores the three bytes at addresses 0 .. 2, and the `Read("NAME")`
that follows returns a nil error and a slice of length 0, not one of 32 bytes
that starts with "eep". -/
theorem Write_then_Read_NAME_returns_no_bytes :
    ((New blankDevice specEntries).Write "NAME" eepBytes).1 = none ∧
    fetch ((New blankDevice specEntries).Write "NAME" eepBytes).2.device.mem 0 3 = eepBytes ∧
    ((New blankDevice specEntries).Length "NAME").1 = (32, none) ∧
    ((((New blankDevice specEntries).Write "NAME" eepBytes).2).Read "NAME").1.2 = none ∧
    ((((New blankDevice specEntries).Write "NAME" eepBytes).2).Read "NAME").1.1.map
        ByteSlice.toList = some [] := by
  refine ⟨by decide, by decide, by decide, by decide, by decide⟩

/-! ## Write -/

theorem storeAt_inside (mem : Nat → Byte) (data : List Byte) (offset i : Nat)
    (h : i < data.length) : storeAt mem data offset (offset + i) = data.get ⟨i, h⟩ := by
  have hc : offset ≤ offset + i ∧ offset + i - offset < data.length := by
    constructor
    · omega
    · simpa using h
  simp only [storeAt, hc, and_self, dite_true]
  congr 1
  apply Fin.ext
  simp

theorem storeAt_outside (mem : Nat → Byte) (data : List Byte) (offset a : Nat)
    (h : a < offset ∨ offset + data.length ≤ a) : storeAt mem data offset a = mem a := by
  have hc : ¬ (offset ≤ a ∧ a - offset < data.length) := by omega
  simp only [storeAt, hc, dite_false]

theorem Write_too_long (e : eeper) (k : String) (ee : EEPROMEntry) (v : List Byte)
    (hk : e.findEntry k = (ee, none)) (hv : v.length > ee.Length) :
    e.Write k v = (some (errors.New ERR_VALUE_TOO_LONG), e) := by
  simp only [eeper.Write, hk, hv, if_true]

theorem Write_fits (e : eeper) (k : String) (ee : EEPROMEntry) (v : List Byte)
    (hk : e.findEntry k = (ee, none)) (hv : v.length ≤ ee.Length) :
    e.Write k v =
      ((e.device.WriteAt v ee.Offset).1.2, { e with device := (e.device.WriteAt v ee.Offset).2 }) := by
  have hv2 : ¬ v.length > ee.Length := by omega
  simp only [eeper.Write, hk, hv2, if_false]

theorem WriteAt_err_ne_New (d : Device) (v : List Byte) (offset : Nat) (msg : String) :
    (d.WriteAt v offset).1.2 ≠ some (errors.New msg) := by
  unfold Device.WriteAt
  rcases d.writeAtFault with _ | ⟨n, code⟩ <;> simp [errors.New]

theorem WriteAt_healthy (d : Device) (v : List Byte) (offset : Nat) (h : d.writeAtFault = none) :
    d.WriteAt v offset =
      ((v.length, none),
        { d with mem := storeAt d.mem v offset, calls := d.calls ++ [DevCall.writeAt v offset] }) := by
  simp only [Device.WriteAt, h]

theorem WriteAt_ok_iff (d : Device) (v : List Byte) (offset : Nat) :
    (d.WriteAt v offset).1.2 = none ↔ d.writeAtFault = none := by
  unfold Device.WriteAt
  rcases d.writeAtFault with _ | ⟨n, code⟩ <;> simp

/-- C7: for every key `k` that `findEntry` resolves to the entry `ee` and every
value `v`, `Write(k, v)` returns the value-too-long error if and only if
`len(v) > ee.Length`; a value that fits is written and the call succeeds when
the device write succeeds; in particular a value of exactly `ee.Length` bytes
succeeds on such a device and a value of `ee.Length + 1` bytes fails with the
value-too-long error. -/
theorem Write_too_long_iff (e : eeper) (k : String) (ee : EEPROMEntry) (v : List Byte)
    (hk : e.findEntry k = (ee, none)) :
    ((e.Write k v).1 = some (errors.New ERR_VALUE_TOO_LONG) ↔ v.length > ee.Length) ∧
    (v.length ≤ ee.Length → e.device.writeAtFault = none → (e.Write k v).1 = none) ∧
    (∀ w : List Byte, w.length = ee.Length → e.device.writeAtFault = none →
      (e.Write k w).1 = none) ∧
    (∀ w : List Byte, w.length = ee.Length + 1 →
      (e.Write k w).1 = some (errors.New ERR_VALUE_TOO_LONG)) := by
  have hfit : ∀ w : List Byte, w.length ≤ ee.Length → e.device.writeAtFault = none →
      (e.Write k w).1 = none := by
    intro w hw hd
    rw [Write_fits e k ee w hk hw]
    exact (WriteAt_ok_iff e.device w ee.Offset).mpr hd
  refine ⟨⟨?_, ?_⟩, hfit v, ?_, ?_⟩
  · intro h
    by_contra hv
    have hv2 : v.length ≤ ee.Length := by omega
    rw [Write_fits e k ee v hk hv2] at h
    exact WriteAt_err_ne_New e.device v ee.Offset ERR_VALUE_TOO_LONG h
  · intro hv
    rw [Write_too_long e k ee v hk hv]
  · intro w hw hd
    exact hfit w (by omega) hd
  · intro w hw
    rw [Write_too_long e k ee w hk (by omega)]

/-- Witness of C7: the one-byte key `FLAG` of the specification's example. -/
theorem Write_too_long_iff_witness :
    (((New blankDevice specEntries).Write "FLAG" [1, 2]).1 = some (errors.New ERR_VALUE_TOO_LONG) ↔
      [(1 : Byte), 2].length > (EEPROMEntry.mk "FLAG" 32 1).Length) ∧
    ([(1 : Byte), 2].length ≤ (EEPROMEntry.mk "FLAG" 32 1).Length →
      (New blankDevice specEntries).device.writeAtFault = none →
      ((New blankDevice specEntries).Write "FLAG" [1, 2]).1 = none) ∧
    (∀ w : List Byte, w.length = (EEPROMEntry.mk "FLAG" 32 1).Length →
      (New blankDevice specEntries).device.writeAtFault = none →
      ((New blankDevice specEntries).Write "FLAG" w).1 = none) ∧
    (∀ w : List Byte, w.length = (EEPROMEntry.mk "FLAG" 32 1).Length + 1 →
      ((New blankDevice specEntries).Write "FLAG" w).1 = some (errors.New ERR_VALUE_TOO_LONG)) :=
  Write_too_long_iff (New blankDevice specEntries) "FLAG" (EEPROMEntry.mk "FLAG" 32 1) [1, 2]
    (by decide)

/-- C8: for every key `k` that `findEntry` resolves to the entry `ee` and every
value `v` with `len(v) > ee.Length`, `Write(k, v)` returns the value-too-long
error and the accessor after the call is the accessor before it: no device
call is added to the log and the device memory is the same. -/
theorem Write_rejected_leaves_device (e : eeper) (k : String) (ee : EEPROMEntry)
    (v : List Byte) (hk : e.findEntry k = (ee, none)) (hv : v.length > ee.Length) :
    e.Write k v = (some (errors.New ERR_VALUE_TOO_LONG), e) ∧
    (e.Write k v).2.device.calls = e.device.calls ∧
    (e.Write k v).2.device.mem = e.device.mem := by
  rw [Write_too_long e k ee v hk hv]
  exact ⟨rfl, rfl, rfl⟩

/-- Witness of C8: two bytes for the one-byte key `FLAG`. -/
theorem Write_rejected_leaves_device_witness :
    (New blankDevice specEntries).Write "FLAG" [0, 1] =
        (some (errors.New ERR_VALUE_TOO_LONG), New blankDevice specEntries) ∧
    ((New blankDevice specEntries).Write "FLAG" [0, 1]).2.device.calls =
        (New blankDevice specEntries).device.calls ∧
    ((New blankDevice specEntries).Write "FLAG" [0, 1]).2.device.mem =
        (New blankDevice specEntries).device.mem :=
  Write_rejected_leaves_device (New blankDevice specEntries) "FLAG" (EEPROMEntry.mk "FLAG" 32 1)
    [0, 1] (by decide) (by decide)

/-- C9: for every key `k` that `findEntry` resolves to the entry `ee` and every
value `v` with `len(v) <= ee.Length`, a `Write(k, v)` that returns nil leaves
the device with the bytes of `v` at `ee.Offset .. ee.Offset + len(v) - 1` and
every other byte as before; in particular the tail
`ee.Offset + len(v) .. ee.Offset + ee.Length - 1` of the field keeps its
contents.  The single device call issued is the range write of `v` at
`ee.Offset`. -/
theorem Write_frame (e : eeper) (k : String) (ee : EEPROMEntry) (v : List Byte)
    (hk : e.findEntry k = (ee, none)) (hv : v.length ≤ ee.Length)
    (hok : (e.Write k v).1 = none) :
    (∀ (i : Nat) (h : i < v.length),
      (e.Write k v).2.device.mem (ee.Offset + i) = v.get ⟨i, h⟩) ∧
    (∀ a : Nat, a < ee.Offset ∨ ee.Offset + v.length ≤ a →
      (e.Write k v).2.device.mem a = e.device.mem a) ∧
    (∀ a : Nat, ee.Offset + v.length ≤ a → a < ee.Offset + ee.Length →
      (e.Write k v).2.device.mem a = e.device.mem a) ∧
    (e.Write k v).2.device.calls = e.device.calls ++ [DevCall.writeAt v ee.Offset] := by
  rw [Write_fits e k ee v hk hv] at hok ⊢
  have hd : e.device.writeAtFault = none := (WriteAt_ok_iff e.device v ee.Offset).mp hok
  simp only [WriteAt_healthy e.device v ee.Offset hd]
  refine ⟨?_, ?_, ?_, trivial⟩
  · intro i h
    exact storeAt_inside e.device.mem v ee.Offset i h
  · intro a ha
    exact storeAt_outside e.device.mem v ee.Offset a ha
  · intro a ha _
    exact storeAt_outside e.device.mem v ee.Offset a (Or.inr ha)

/-- Witness of C9: the text "eep" written to the 32-byte key `NAME`. -/
theorem Write_frame_witness :
    (∀ (i : Nat) (h : i < eepBytes.length),
      ((New blankDevice specEntries).Write "NAME" eepBytes).2.device.mem
        ((EEPROMEntry.mk "NAME" 0 32).Offset + i) = eepBytes.get ⟨i, h⟩) ∧
    (∀ a : Nat, a < (EEPROMEntry.mk "NAME" 0 32).Offset ∨
        (EEPROMEntry.mk "NAME" 0 32).Offset + eepBytes.length ≤ a →
      ((New blankDevice specEntries).Write "NAME" eepBytes).2.device.mem a =
        (New blankDevice specEntries).device.mem a) ∧
    (∀ a : Nat, (EEPROMEntry.mk "NAME" 0 32).Offset + eepBytes.length ≤ a →
        a < (EEPROMEntry.mk "NAME" 0 32).Offset + (EEPROMEntry.mk "NAME" 0 32).Length →
      ((New blankDevice specEntries).Write "NAME" eepBytes).2.device.mem a =
        (New blankDevice specEntries).device.mem a) ∧
    ((New blankDevice specEntries).Write "NAME" eepBytes).2.device.calls =
      (New blankDevice specEntries).device.calls ++
        [DevCall.writeAt eepBytes (EEPROMEntry.mk "NAME" 0 32).Offset] :=
  Write_frame (New blankDevice specEntries) "NAME" (EEPROMEntry.mk "NAME" 0 32) eepBytes
    (by decide) (by decide) (by decide)

/-! ## Is -/

/-- C10: for every key `k` that `findEntry` resolves to an entry `ee` with
`ee.Length > 1`, and whatever the device holds, `Is(k)` returns a nil `*bool`
and the error `errors.New("(" + k + ") " + ERR_NOT_BOOL_KEY)`, and the
accessor after the call is the accessor before it: no device read is added to
the log. -/
theorem Is_wide_key_not_bool (e : eeper) (k : String) (ee : EEPROMEntry)
    (hk : e.findEntry k = (ee, none)) (hl : ee.Length > 1) :
    e.Is k = ((none, some (errors.New ("(" ++ k ++ ") " ++ ERR_NOT_BOOL_KEY))), e) ∧
    (e.Is k).2.device.calls = e.device.calls := by
  have h : e.Is k = ((none, some (errors.New ("(" ++ k ++ ") " ++ ERR_NOT_BOOL_KEY))), e) := by
    simp only [eeper.Is, hk, hl, if_true]
  rw [h]
  exact ⟨rfl, rfl⟩

/-- Witness of C10: the 32-byte key `NAME` of the specification's example. -/
theorem Is_wide_key_not_bool_witness :
    (New blankDevice specEntries).Is "NAME" =
        ((none, some (errors.New ("(" ++ "NAME" ++ ") " ++ ERR_NOT_BOOL_KEY))),
          New blankDevice specEntries) ∧
    ((New blankDevice specEntries).Is "NAME").2.device.calls =
        (New blankDevice specEntries).device.calls :=
  Is_wide_key_not_bool (New blankDevice specEntries) "NAME" (EEPROMEntry.mk "NAME" 0 32)
    (by decide) (by decide)

theorem Is_narrow (e : eeper) (k : String) (ee : EEPROMEntry)
    (hk : e.findEntry k = (ee, none)) (hl : ee.Length ≤ 1) :
    e.Is k =
      (if (e.device.ReadByte ee.Offset).1.1 = 1 then (some true, none)
        else if (e.device.ReadByte ee.Offset).1.1 = 0 then (some false, none)
        else (none, some (errors.New (strconv.FormatUint (e.device.ReadByte ee.Offset).1.1.val))),
        { e with device := (e.device.ReadByte ee.Offset).2 }) := by
  have hl2 : ¬ ee.Length > 1 := by omega
  simp only [eeper.Is, hk, hl2, if_false]
  split_ifs <;> rfl

theorem ReadByte_healthy (d : Device) (offset : Nat) (h : d.readByteFault = none) :
    d.ReadByte offset =
      ((d.mem offset, none), { d with calls := d.calls ++ [DevCall.readByte offset] }) := by
  simp only [Device.ReadByte, h]

theorem ReadByte_faulty (d : Device) (offset : Nat) (b : Byte) (code : Nat)
    (h : d.readByteFault = some (b, code)) :
    d.ReadByte offset =
      ((b, some (GoError.device code)),
        { d with calls := d.calls ++ [DevCall.readByte offset] }) := by
  simp only [Device.ReadByte, h]

theorem Write_entries (e : eeper) (k : String) (v : List Byte) :
    (e.Write k v).2.entries = e.entries := by
  unfold eeper.Write
  rcases e.findEntry k with ⟨ee, _ | err⟩
  · by_cases hv : v.length > ee.Length <;> simp [hv]
  · rfl

theorem Write_faults (e : eeper) (k : String) (v : List Byte) :
    (e.Write k v).2.device.readAtFault = e.device.readAtFault ∧
    (e.Write k v).2.device.writeAtFault = e.device.writeAtFault ∧
    (e.Write k v).2.device.readByteFault = e.device.readByteFault := by
  unfold eeper.Write
  rcases e.findEntry k with ⟨ee, _ | err⟩
  · by_cases hv : v.length > ee.Length
    · simp [hv]
    · simp only [hv, if_false, Device.WriteAt]
      rcases e.device.writeAtFault with _ | ⟨n, code⟩ <;> simp
  · simp

theorem findEntry_congr (e1 e2 : eeper) (k : String) (h : e1.entries = e2.entries) :
    e1.findEntry k = e2.findEntry k := by
  simp only [eeper.findEntry, h]

/-- C11: for every key `k` that `findEntry` resolves to an entry `ee` of length
1, on a device whose single-byte read succeeds, `Is(k)` reads the byte `b` at
`ee.Offset` (its only device call) and returns `true` with a nil error when
`b = 1`, `false` with a nil error when `b = 0`, and otherwise a nil `*bool`
with the error `errors.New(strconv.FormatUint(b, 10))`, the decimal rendering
of the byte: "255" for `0xFF`, "42" for 42. -/
theorem Is_one_byte (e : eeper) (k : String) (ee : EEPROMEntry)
    (hk : e.findEntry k = (ee, none)) (hl : ee.Length = 1)
    (hd : e.device.readByteFault = none) :
    (e.device.mem ee.Offset = 1 → (e.Is k).1 = (some true, none)) ∧
    (e.device.mem ee.Offset = 0 → (e.Is k).1 = (some false, none)) ∧
    (e.device.mem ee.Offset ≠ 1 → e.device.mem ee.Offset ≠ 0 →
      (e.Is k).1 =
        (none, some (errors.New (strconv.FormatUint (e.device.mem ee.Offset).val)))) ∧
    (e.Is k).2.device.calls = e.device.calls ++ [DevCall.readByte ee.Offset] ∧
    strconv.FormatUint (255 : Byte).val = "255" ∧ strconv.FormatUint (42 : Byte).val = "42" := by
  rw [Is_narrow e k ee hk (by omega), ReadByte_healthy e.device ee.Offset hd]
  refine ⟨?_, ?_, ?_, rfl, by decide, by decide⟩
  · intro h
    show (if e.device.mem ee.Offset = 1 then _ else _) = _
    rw [if_pos h]
  · intro h
    have h1 : e.device.mem ee.Offset ≠ 1 := by rw [h]; decide
    show (if e.device.mem ee.Offset = 1 then _ else _) = _
    rw [if_neg h1, if_pos h]
  · intro h1 h0
    show (if e.device.mem ee.Offset = 1 then _ else _) = _
    rw [if_neg h1, if_neg h0]

/-- Witness of C11: the key `BYTE` of the example program on a blank device,
whose byte `0xFF` is reported as "255". -/
theorem Is_one_byte_witness :
    ((New blankDevice exampleEntries).Is "BYTE").1 = (none, some (errors.New "255")) :=
  (Is_one_byte (New blankDevice exampleEntries) "BYTE" (EEPROMEntry.mk "BYTE" 33 1)
    (by decide) rfl rfl).2.2.1 (by decide) (by decide)

theorem Write_one_then_Is (e : eeper) (k : String) (ee : EEPROMEntry) (b : Byte)
    (hk : e.findEntry k = (ee, none)) (hl : ee.Length = 1)
    (hw : e.device.writeAtFault = none) (hr : e.device.readByteFault = none) :
    (e.Write k [b]).1 = none ∧
    ((e.Write k [b]).2.Is k).1 =
      (if b = 1 then (some true, none)
        else if b = 0 then (some false, none)
        else (none, some (errors.New (strconv.FormatUint b.val)))) := by
  have hv : [b].length ≤ ee.Length := by simp [hl]
  have hk2 : (e.Write k [b]).2.findEntry k = (ee, none) := by
    rw [findEntry_congr _ e k (Write_entries e k [b])]
    exact hk
  have hr2 : (e.Write k [b]).2.device.readByteFault = none := by
    rw [(Write_faults e k [b]).2.2]
    exact hr
  have hm : (e.Write k [b]).2.device.mem ee.Offset = b := by
    rw [Write_fits e k ee [b] hk hv, WriteAt_healthy e.device [b] ee.Offset hw]
    exact storeAt_inside e.device.mem [b] ee.Offset 0 (by simp)
  constructor
  · rw [Write_fits e k ee [b] hk hv]
    exact (WriteAt_ok_iff e.device [b] ee.Offset).mpr hw
  · rw [Is_narrow _ k ee hk2 (by omega), ReadByte_healthy _ ee.Offset hr2]
    simp only [hm]

/-- C12: for every key `k` that `findEntry` resolves to an entry of length 1, on
a device whose range write and single-byte read succeed, `Write(k, [1])`
succeeds and the `Is(k)` that follows returns `true`; `Write(k, [0])` succeeds
and `Is(k)` returns `false`; `Write(k, [2])` succeeds and `Is(k)` fails with
the error that carries the byte, `errors.New("2")`. -/
theorem Write_then_Is (e : eeper) (k : String) (ee : EEPROMEntry)
    (hk : e.findEntry k = (ee, none)) (hl : ee.Length = 1)
    (hw : e.device.writeAtFault = none) (hr : e.device.readByteFault = none) :
    ((e.Write k [1]).1 = none ∧ ((e.Write k [1]).2.Is k).1 = (some true, none)) ∧
    ((e.Write k [0]).1 = none ∧ ((e.Write k [0]).2.Is k).1 = (some false, none)) ∧
    ((e.Write k [2]).1 = none ∧
      ((e.Write k [2]).2.Is k).1 = (none, some (errors.New "2"))) := by
  refine ⟨?_, ?_, ?_⟩
  · exact Write_one_then_Is e k ee 1 hk hl hw hr
  · exact Write_one_then_Is e k ee 0 hk hl hw hr
  · exact Write_one_then_Is e k ee 2 hk hl hw hr

/-- Witness of C12: the key `FLAG` of the specification's example. -/
theorem Write_then_Is_witness :
    (((New blankDevice specEntries).Write "FLAG" [1]).1 = none ∧
      (((New blankDevice specEntries).Write "FLAG" [1]).2.Is "FLAG").1 = (some true, none)) ∧
    (((New blankDevice specEntries).Write "FLAG" [0]).1 = none ∧
      (((New blankDevice specEntries).Write "FLAG" [0]).2.Is "FLAG").1 = (some false, none)) ∧
    (((New blankDevice specEntries).Write "FLAG" [2]).1 = none ∧
      (((New blankDevice specEntries).Write "FLAG" [2]).2.Is "FLAG").1 =
        (none, some (errors.New "2"))) :=
  Write_then_Is (New blankDevice specEntries) "FLAG" (EEPROMEntry.mk "FLAG" 32 1)
    (by decide) rfl rfl rfl

/-- C13, evaluated at a failing input: on the registry of the specification's
example, `FLAG` is resolved to an entry of length 1, the device's single-byte
read at offset 32 fails with an I/O error and hands back the byte 0, and
`Is("FLAG")` returns `false` with a nil error: the I/O error is dropped. -/
theorem Is_swallows_read_error :
    (New readByteFailDevice specEntries).findEntry "FLAG" = (EEPROMEntry.mk "FLAG" 32 1, none) ∧
    (readByteFailDevice.ReadByte 32).1 = (0, some (GoError.device 5)) ∧
    ((New readByteFailDevice specEntries).Is "FLAG").1 = (some false, none) := by
  refine ⟨by decide, by decide, by decide⟩

/-! ## Device errors -/

theorem Read_registered (e : eeper) (k : String) (ee : EEPROMEntry)
    (hk : e.findEntry k = (ee, none)) :
    e.Read k =
      ((some { make 0 ee.Length with
          backing := (e.device.ReadAt (make 0 ee.Length) ee.Offset).1.1 },
        (e.device.ReadAt (make 0 ee.Length) ee.Offset).1.2.2),
       { e with device := (e.device.ReadAt (make 0 ee.Length) ee.Offset).2 }) := by
  simp only [eeper.Read, hk]

/-- C14: for every key `k` that `findEntry` resolves to the entry `ee`, the
error `Read(k)` returns is the error of the device's range read: the I/O error
itself when the read fails, nil when it succeeds; and for every value `v` with
`len(v) <= ee.Length` the error `Write(k, v)` returns is the error of the
device's range write: the I/O error itself when the write fails, nil when it
succeeds. -/
theorem device_error_passthrough (e : eeper) (k : String) (ee : EEPROMEntry)
    (hk : e.findEntry k = (ee, none)) :
    (e.Read k).1.2 = (e.device.ReadAt (make 0 ee.Length) ee.Offset).1.2.2 ∧
    (∀ code : Nat, e.device.readAtFault = some code →
      (e.Read k).1.2 = some (GoError.device code)) ∧
    (e.device.readAtFault = none → (e.Read k).1.2 = none) ∧
    (∀ v : List Byte, v.length ≤ ee.Length →
      (e.Write k v).1 = (e.device.WriteAt v ee.Offset).1.2 ∧
      (∀ n code : Nat, e.device.writeAtFault = some (n, code) →
        (e.Write k v).1 = some (GoError.device code)) ∧
      (e.device.writeAtFault = none → (e.Write k v).1 = none)) := by
  refine ⟨?_, ?_, ?_, ?_⟩
  · rw [Read_registered e k ee hk]
  · intro code hc
    rw [Read_registered e k ee hk]
    simp only [Device.ReadAt, hc]
  · intro hc
    rw [Read_registered e k ee hk]
    simp only [Device.ReadAt, hc]
  · intro v hv
    rw [Write_fits e k ee v hk hv]
    refine ⟨rfl, ?_, ?_⟩
    · intro n code hc
      simp only [Device.WriteAt, hc]
    · intro hc
      simp only [Device.WriteAt, hc]

/-- Witness of C14: a device whose range read fails with error 3 and whose range
write fails with error 4; `Read` and `Write` of `NAME` return these errors. -/
theorem device_error_passthrough_witness :
    ((New ioFailDevice specEntries).Read "NAME").1.2 = some (GoError.device 3) ∧
    ((New ioFailDevice specEntries).Write "NAME" eepBytes).1 = some (GoError.device 4) :=
  ⟨(device_error_passthrough (New ioFailDevice specEntries) "NAME" (EEPROMEntry.mk "NAME" 0 32)
      (by decide)).2.1 3 rfl,
   ((device_error_passthrough (New ioFailDevice specEntries) "NAME" (EEPROMEntry.mk "NAME" 0 32)
      (by decide)).2.2.2 eepBytes (by decide)).2.1 0 4 rfl⟩

/-! ## Length -/

/-- C15: for every key `k` that is the Key of some entry, `Length(k)` returns a
nil error and the Length of the first entry of the list whose Key is `k`, and
leaves the accessor as it is; the result is the same whatever device the
accessor holds, and the same after any preceding `Write`. -/
theorem Length_registered (e : eeper) (k : String) (h : Registered e.entries k) :
    ∃ pre x post, e.entries = pre ++ x :: post ∧ (∀ y ∈ pre, y.Key ≠ k) ∧ x.Key = k ∧
      e.Length k = ((x.Length, none), e) ∧
      (∀ d : Device,
        ({ e with device := d }).Length k = ((x.Length, none), { e with device := d })) ∧
      (∀ (k2 : String) (v : List Byte), ((e.Write k2 v).2.Length k).1 = (x.Length, none)) := by
  obtain ⟨pre, x, post, hl, hpre, hx⟩ := registered_split e.entries k h
  have hf : ∀ e2 : eeper, e2.entries = e.entries → e2.Length k = ((x.Length, none), e2) := by
    intro e2 he
    have hk : e2.findEntry k = (x, none) := by
      unfold eeper.findEntry
      rw [he, hl]
      exact findEntryLoop_first k pre post x hpre hx
    simp only [eeper.Length, hk]
  refine ⟨pre, x, post, hl, hpre, hx, hf e rfl, ?_, ?_⟩
  · intro d
    exact hf _ rfl
  · intro k2 v
    rw [hf _ (Write_entries e k2 v)]

/-- Witness of C15: the key `NAME` of the specification's example. -/
theorem Length_registered_witness :
    ∃ pre x post, (New blankDevice specEntries).entries = pre ++ x :: post ∧
      (∀ y ∈ pre, y.Key ≠ "NAME") ∧ x.Key = "NAME" ∧
      (New blankDevice specEntries).Length "NAME" =
        ((x.Length, none), New blankDevice specEntries) ∧
      (∀ d : Device,
        ({ New blankDevice specEntries with device := d }).Length "NAME" =
          ((x.Length, none), { New blankDevice specEntries with device := d })) ∧
      (∀ (k2 : String) (v : List Byte),
        (((New blankDevice specEntries).Write k2 v).2.Length "NAME").1 = (x.Length, none)) :=
  Length_registered (New blankDevice specEntries) "NAME" (by decide)

/-! ## Results as functions of the device contents -/

theorem Read_congr (e1 e2 : eeper) (k : String) (hent : e1.entries = e2.entries)
    (hf : e1.device.readAtFault = e2.device.readAtFault)
    (hm : e1.device.mem = e2.device.mem) :
    (e1.Read k).1 = (e2.Read k).1 := by
  have hfe := findEntry_congr e1 e2 k hent
  rcases h1 : e1.findEntry k with ⟨ee, _ | err⟩
  · have h2 : e2.findEntry k = (ee, none) := by rw [← hfe]; exact h1
    rw [Read_registered e1 k ee h1, Read_registered e2 k ee h2]
    simp only [Device.ReadAt, ← hf, ← hm]
    rcases e1.device.readAtFault with _ | code <;> rfl
  · have h2 : e2.findEntry k = (ee, some err) := by rw [← hfe]; exact h1
    simp only [eeper.Read, h1, h2]

theorem Is_congr (e1 e2 : eeper) (k : String) (hent : e1.entries = e2.entries)
    (hf : e1.device.readByteFault = e2.device.readByteFault)
    (hm : ∀ ee : EEPROMEntry, e1.findEntry k = (ee, none) → ee.Length ≤ 1 →
      e1.device.mem ee.Offset = e2.device.mem ee.Offset) :
    (e1.Is k).1 = (e2.Is k).1 := by
  have hfe := findEntry_congr e1 e2 k hent
  rcases h1 : e1.findEntry k with ⟨ee, _ | err⟩
  · have h2 : e2.findEntry k = (ee, none) := by rw [← hfe]; exact h1
    by_cases hl : ee.Length > 1
    · simp only [eeper.Is, h1, h2, hl, if_true]
    · have hl2 : ee.Length ≤ 1 := by omega
      rw [Is_narrow e1 k ee h1 hl2, Is_narrow e2 k ee h2 hl2]
      have hb : (e1.device.ReadByte ee.Offset).1 = (e2.device.ReadByte ee.Offset).1 := by
        simp only [Device.ReadByte, ← hf]
        rcases e1.device.readByteFault with _ | ⟨b, code⟩
        · simp only [hm ee h1 hl2]
        · rfl
      simp only [hb]
  · have h2 : e2.findEntry k = (ee, some err) := by rw [← hfe]; exact h1
    simp only [eeper.Is, h1, h2]

theorem storeAt_idem (mem : Nat → Byte) (data : List Byte) (offset : Nat) :
    storeAt (storeAt mem data offset) data offset = storeAt mem data offset := by
  funext a
  by_cases hc : offset ≤ a ∧ a - offset < data.length
  · simp only [storeAt, hc, and_self, dite_true]
  · simp only [storeAt, hc, dite_false]

/-- C16: for every key `k` that `findEntry` resolves to the entry `ee` and every
value `v` with `len(v) <= ee.Length`, on a device whose range write succeeds,
`Write(k, v)` succeeds both times and the second write leaves the device with
the memory the first write left (the entry list and the outcomes of the
primitives are the same too), so `Read` and `Is` of any key return the same
result after one write as after two. -/
theorem Write_twice (e : eeper) (k : String) (ee : EEPROMEntry) (v : List Byte)
    (hk : e.findEntry k = (ee, none)) (hv : v.length ≤ ee.Length)
    (hw : e.device.writeAtFault = none) :
    (e.Write k v).1 = none ∧ ((e.Write k v).2.Write k v).1 = none ∧
    ((e.Write k v).2.Write k v).2.device.mem = (e.Write k v).2.device.mem ∧
    ((e.Write k v).2.Write k v).2.entries = (e.Write k v).2.entries ∧
    (∀ k2 : String,
      (((e.Write k v).2.Write k v).2.Read k2).1 = ((e.Write k v).2.Read k2).1 ∧
      (((e.Write k v).2.Write k v).2.Is k2).1 = ((e.Write k v).2.Is k2).1) := by
  have hk2 : (e.Write k v).2.findEntry k = (ee, none) := by
    rw [findEntry_congr _ e k (Write_entries e k v)]
    exact hk
  have hw2 : (e.Write k v).2.device.writeAtFault = none := by
    rw [(Write_faults e k v).2.1]
    exact hw
  have hm1 : (e.Write k v).2.device.mem = storeAt e.device.mem v ee.Offset := by
    rw [Write_fits e k ee v hk hv, WriteAt_healthy e.device v ee.Offset hw]
  have hm : ((e.Write k v).2.Write k v).2.device.mem = (e.Write k v).2.device.mem := by
    have h2 : ((e.Write k v).2.Write k v).2.device.mem =
        storeAt (e.Write k v).2.device.mem v ee.Offset := by
      rw [Write_fits (e.Write k v).2 k ee v hk2 hv,
        WriteAt_healthy (e.Write k v).2.device v ee.Offset hw2]
    rw [h2, hm1, storeAt_idem]
  have hent := Write_entries (e.Write k v).2 k v
  have hfl := Write_faults (e.Write k v).2 k v
  refine ⟨?_, ?_, hm, hent, ?_⟩
  · rw [Write_fits e k ee v hk hv]
    exact (WriteAt_ok_iff e.device v ee.Offset).mpr hw
  · rw [Write_fits (e.Write k v).2 k ee v hk2 hv]
    exact (WriteAt_ok_iff (e.Write k v).2.device v ee.Offset).mpr hw2
  · intro k2
    constructor
    · exact Read_congr _ _ k2 hent hfl.1 hm
    · exact Is_congr _ _ k2 hent hfl.2.2 (fun _ _ _ => by rw [hm])

/-- Witness of C16: the byte 1 written twice to the key `FLAG`. -/
theorem Write_twice_witness :
    ((New blankDevice specEntries).Write "FLAG" [1]).1 = none ∧
    ((((New blankDevice specEntries).Write "FLAG" [1]).2).Write "FLAG" [1]).1 = none ∧
    ((((New blankDevice specEntries).Write "FLAG" [1]).2).Write "FLAG" [1]).2.device.mem =
      ((New blankDevice specEntries).Write "FLAG" [1]).2.device.mem ∧
    ((((New blankDevice specEntries).Write "FLAG" [1]).2).Write "FLAG" [1]).2.entries =
      ((New blankDevice specEntries).Write "FLAG" [1]).2.entries ∧
    (∀ k2 : String,
      ((((((New blankDevice specEntries).Write "FLAG" [1]).2).Write "FLAG" [1]).2).Read k2).1 =
        ((((New blankDevice specEntries).Write "FLAG" [1]).2).Read k2).1 ∧
      ((((((New blankDevice specEntries).Write "FLAG" [1]).2).Write "FLAG" [1]).2).Is k2).1 =
        ((((New blankDevice specEntries).Write "FLAG" [1]).2).Is k2).1) :=
  Write_twice (New blankDevice specEntries) "FLAG" (EEPROMEntry.mk "FLAG" 32 1) [1]
    (by decide) (by decide) rfl

/-! ## Boolean width -/

/-- C17, as stated, fails: the key `B` is resolved to an entry of length 0, and
`Is("B")` returns the boolean `false` with a nil error, read from the byte at
the entry's offset. -/
theorem Is_zero_length_returns_bool :
    (New zeroDevice zeroLengthEntries).findEntry "B" = (EEPROMEntry.mk "B" 0 0, none) ∧
    ((New zeroDevice zeroLengthEntries).Is "B").1 = (some false, none) ∧
    (EEPROMEntry.mk "B" 0 0).Length ≠ 1 := by
  refine ⟨by decide, by decide, by decide⟩

/-- C17, amended: for every key `k` that `findEntry` resolves to the entry `ee`,
if `Is(k)` returns a boolean then `ee.Length` is at most 1: the guard rejects
the lengths greater than 1 only. -/
theorem Is_bool_length_le_one (e : eeper) (k : String) (ee : EEPROMEntry) (bv : Bool)
    (hk : e.findEntry k = (ee, none)) (h : (e.Is k).1.1 = some bv) : ee.Length ≤ 1 := by
  by_contra hl
  have hl2 : ee.Length > 1 := by omega
  simp [eeper.Is, hk, hl2] at h

/-- Witness of C17 amended: `Is("FLAG")` on a device that holds zeros. -/
theorem Is_bool_length_le_one_witness :
    ((New zeroDevice specEntries).Is "FLAG").1.1 = some false ∧
    (EEPROMEntry.mk "FLAG" 32 1).Length ≤ 1 :=
  ⟨by decide,
   Is_bool_length_le_one (New zeroDevice specEntries) "FLAG" (EEPROMEntry.mk "FLAG" 32 1) false
    (by decide) (by decide)⟩

/-! ## Field isolation -/

theorem Write_mem_outside (e : eeper) (k : String) (ee : EEPROMEntry) (v : List Byte)
    (hk : e.findEntry k = (ee, none)) (a : Nat)
    (ha : a < ee.Offset ∨ ee.Offset + ee.Length ≤ a) :
    (e.Write k v).2.device.mem a = e.device.mem a := by
  by_cases hv : v.length > ee.Length
  · rw [Write_too_long e k ee v hk hv]
  · have hv2 : v.length ≤ ee.Length := by omega
    rw [Write_fits e k ee v hk hv2]
    simp only [Device.WriteAt]
    rcases e.device.writeAtFault with _ | ⟨n, code⟩
    · exact storeAt_outside e.device.mem v ee.Offset a (by omega)
    · have hn : (v.take n).length ≤ v.length := by
        rw [List.length_take]
        exact Nat.min_le_right n v.length
      exact storeAt_outside e.device.mem (v.take n) ee.Offset a (by omega)

theorem fetch_congr (m1 m2 : Nat → Byte) (offset n : Nat)
    (h : ∀ a : Nat, offset ≤ a → a < offset + n → m1 a = m2 a) :
    fetch m1 offset n = fetch m2 offset n := by
  unfold fetch
  apply List.map_congr_left
  intro i hi
  have hi2 : i < n := List.mem_range.mp hi
  exact h (offset + i) (by omega) (by omega)

/-- C18, as stated, fails in two ways.  With a duplicated key: the entries
`("A", 8, 4)` and `("B", 0, 4)` are registered and their ranges are disjoint,
yet `Write("A", [1])` is resolved to the first entry of key `A` and changes
the byte at address 0, in the range of `B`.  With an entry of length 0: the
range of `("B", 0, 0)` is empty, so disjoint from that of `("A", 0, 4)`, yet
`Is("B")` returns `false` before `Write("A", [1])` and `true` after it. -/
theorem Write_isolation_fails :
    (EEPROMEntry.mk "A" 8 4 ∈ duplicateKeyEntries ∧ EEPROMEntry.mk "B" 0 4 ∈ duplicateKeyEntries ∧
      (EEPROMEntry.mk "B" 0 4).Offset + (EEPROMEntry.mk "B" 0 4).Length ≤
        (EEPROMEntry.mk "A" 8 4).Offset ∧
      ((New blankDevice duplicateKeyEntries).Write "A" [1]).2.device.mem 0 ≠ blankDevice.mem 0) ∧
    (EEPROMEntry.mk "A" 0 4 ∈ zeroLengthEntries ∧ EEPROMEntry.mk "B" 0 0 ∈ zeroLengthEntries ∧
      (EEPROMEntry.mk "B" 0 0).Offset + (EEPROMEntry.mk "B" 0 0).Length ≤
        (EEPROMEntry.mk "A" 0 4).Offset ∧
      ((New zeroDevice zeroLengthEntries).Is "B").1 = (some false, none) ∧
      (((New zeroDevice zeroLengthEntries).Write "A" [1]).2.Is "B").1 = (some true, none)) := by
  refine ⟨⟨by decide, by decide, by decide, by decide⟩,
    ⟨by decide, by decide, by decide, by decide, by decide⟩⟩

/-- C18, amended: for keys `ka` and `kb` that `findEntry` resolves to the
entries `A` and `B` whose byte ranges `[Offset, Offset + Length)` are disjoint,
and every value `v`, `Write(ka, v)`, whether it succeeds, is rejected or fails
in the device, leaves every device byte of the range of `B` unchanged, so the
bytes of the field of `B` are the same before and after the write; and when
`B.Length` is at least 1, `Is(kb)` returns the same result before and after. -/
theorem Write_isolated (e : eeper) (ka kb : String) (A B : EEPROMEntry) (v : List Byte)
    (hA : e.findEntry ka = (A, none)) (hB : e.findEntry kb = (B, none))
    (hdisj : ∀ a : Nat, A.Offset ≤ a → a < A.Offset + A.Length →
      B.Offset ≤ a → a < B.Offset + B.Length → False) :
    (∀ a : Nat, B.Offset ≤ a → a < B.Offset + B.Length →
      (e.Write ka v).2.device.mem a = e.device.mem a) ∧
    fetch (e.Write ka v).2.device.mem B.Offset B.Length = fetch e.device.mem B.Offset B.Length ∧
    (1 ≤ B.Length → ((e.Write ka v).2.Is kb).1 = (e.Is kb).1) := by
  have hin : ∀ a : Nat, B.Offset ≤ a → a < B.Offset + B.Length →
      (e.Write ka v).2.device.mem a = e.device.mem a := by
    intro a h1 h2
    apply Write_mem_outside e ka A v hA a
    by_contra hc
    exact hdisj a (by omega) (by omega) h1 h2
  refine ⟨hin, fetch_congr _ _ _ _ hin, ?_⟩
  intro hlen
  apply Is_congr _ _ kb (Write_entries e ka v) (Write_faults e ka v).2.2
  intro ee hee _
  have hee2 : e.findEntry kb = (ee, none) := by
    rw [← findEntry_congr _ e kb (Write_entries e ka v)]
    exact hee
  have hEq : ee = B := by
    rw [hB] at hee2
    exact (Prod.mk.inj hee2).1.symm
  rw [hEq]
  exact hin B.Offset (Nat.le_refl _) (by omega)

/-- Witness of C18 amended: `NAME` and `FLAG` of the specification's example,
with a value written to `NAME`. -/
theorem Write_isolated_witness :
    (∀ a : Nat, (EEPROMEntry.mk "FLAG" 32 1).Offset ≤ a →
      a < (EEPROMEntry.mk "FLAG" 32 1).Offset + (EEPROMEntry.mk "FLAG" 32 1).Length →
      ((New zeroDevice specEntries).Write "NAME" eepBytes).2.device.mem a =
        (New zeroDevice specEntries).device.mem a) ∧
    fetch ((New zeroDevice specEntries).Write "NAME" eepBytes).2.device.mem
        (EEPROMEntry.mk "FLAG" 32 1).Offset (EEPROMEntry.mk "FLAG" 32 1).Length =
      fetch (New zeroDevice specEntries).device.mem
        (EEPROMEntry.mk "FLAG" 32 1).Offset (EEPROMEntry.mk "FLAG" 32 1).Length ∧
    (1 ≤ (EEPROMEntry.mk "FLAG" 32 1).Length →
      (((New zeroDevice specEntries).Write "NAME" eepBytes).2.Is "FLAG").1 =
        ((New zeroDevice specEntries).Is "FLAG").1) :=
  Write_isolated (New zeroDevice specEntries) "NAME" "FLAG" (EEPROMEntry.mk "NAME" 0 32)
    (EEPROMEntry.mk "FLAG" 32 1) eepBytes (by decide) (by decide)
    (fun a h1 h2 h3 h4 => by
      simp only at h1 h2 h3 h4
      omega)

end eep
